import Mathlib

/-!
Shallow embedding of the DORA metrics collector's correlation and
aggregation engine (production classification, metric calculators,
per-day aggregation, incident/PR linking, metric upsert), together with
theorems settling the specification claims about it.

Timestamps are modelled as integer epoch seconds; durations in hours are
exact rationals (the Python floats are modelled exactly over ℚ).  The
opaque JSON payload of a deployment is modelled by its typed projection:
the optional environment label and the optional embedded workflow name,
which are the only payload fields the engine reads.
-/

namespace Dora

/-- ASCII case-folding of one character (the keyword alphabet of the
classification predicates is ASCII, so this matches `str.lower()` on
every input the engine compares against). -/
def lowerChar (c : Char) : Char :=
  if 65 ≤ c.toNat && c.toNat ≤ 90 then Char.ofNat (c.toNat + 32) else c

/-- Case-folding of a string, embedding Python `str.lower()`. -/
def lowerStr (s : String) : String := ⟨s.data.map lowerChar⟩

/-- `charsPrefix n h` is true when the char list `n` is an initial
segment of `h` (helper for the substring test). -/
def charsPrefix : List Char → List Char → Bool
  | [], _ => true
  | _ :: _, [] => false
  | a :: as, b :: bs => a == b && charsPrefix as bs

/-- `charsOccur n h` is true when the char list `n` occurs contiguously
inside `h`; embeds Python's `needle in haystack` on strings. -/
def charsOccur (n : List Char) : List Char → Bool
  | [] => n.isEmpty
  | c :: rest => charsPrefix n (c :: rest) || charsOccur n rest

/-- Python `needle in haystack` for strings. -/
def strOccur (needle hay : String) : Bool := charsOccur needle.toList hay.toList

/-- Python `any(t in s for t in terms)`. -/
def anyTermIn (terms : List String) (s : String) : Bool := terms.any (fun t => strOccur t s)

/-- Embeds `detect_production_deployment` (src/dora_calculations.py and
src/app/dora_calculations.py, identical logic): the environment label is
lowered and tested against `prod`/`production`/`live`; otherwise the
workflow name from the payload is lowered and tested against
`deploy`/`prod`/`release`.  A missing field defaults to the empty
string, as `payload.get(..., '')` does. -/
def detect_production_deployment (environment workflowName : Option String) : Bool :=
  let env := lowerStr (environment.getD "")
  if anyTermIn ["prod", "production", "live"] env then true
  else
    let wf := lowerStr (workflowName.getD "")
    if anyTermIn ["deploy", "prod", "release"] wf then true
    else false

/-- `PRODUCTION_KEYWORDS` of src/app/metrics_processor.py. -/
def PRODUCTION_KEYWORDS : List String :=
  ["production", "prod", "release", "deploy", "main", "live"]

/-- Embeds `is_production_deployment` (src/app/metrics_processor.py):
the same keyword list `PRODUCTION_KEYWORDS` is tested against the
lowered environment label and, failing that, against the lowered
workflow name extracted from the payload. -/
def is_production_deployment (environment workflowName : Option String) : Bool :=
  let env := lowerStr (environment.getD "")
  if anyTermIn PRODUCTION_KEYWORDS env then true
  else
    let wf := lowerStr (workflowName.getD "")
    anyTermIn PRODUCTION_KEYWORDS wf

/-- A stored deployment row (`deployments` table): unique provider id,
repository id, optional environment label, lifecycle status string,
creation timestamp (epoch seconds), source commit hash, and the typed
projection of the payload that the engine reads (the embedded workflow
name, when present). -/
structure Deployment where
  deployment_id : Nat
  repo_id : Nat
  environment : Option String
  status : String
  created_at : Int
  commit_sha : String
  workflow_name : Option String
deriving DecidableEq, Repr

/-- A stored pull-request row (`pull_requests` table). -/
structure PullRequest where
  pr_id : Nat
  repo_id : Nat
  created_at : Int
  merged_at : Option Int
  first_commit_at : Int
  commit_sha : String
deriving DecidableEq, Repr

/-- A stored incident row (`incidents` table). -/
structure Incident where
  issue_id : Nat
  repo_id : Nat
  created_at : Int
  closed_at : Option Int
  is_incident : Bool
  deployment_id : Option Nat
deriving DecidableEq, Repr

/-- A relational snapshot of the event tables the engine reads: the
three entity tables plus the `deployment_prs` link table, whose rows are
`(deployment_id, pr_id)` pairs. -/
structure DB where
  deployments : List Deployment
  pull_requests : List PullRequest
  incidents : List Incident
  links : List (Nat × Nat)
deriving DecidableEq, Repr

/-- SQL `t BETWEEN s AND e` (inclusive on both ends). -/
def inWindow (s e t : Int) : Bool := s ≤ t && t ≤ e

/-- SQL `DATE(t)` on an epoch-second timestamp: the (floor) day number. -/
def dateOf (t : Int) : Int := Int.fdiv t 86400

/-- Embeds `calculate_lead_time` (identical in src/dora_calculations.py
and src/app/dora_calculations.py): with no merge time, or with a deploy
time strictly before the merge time, the hour delta is floored at 0.1;
otherwise the hour delta is returned unfloored. -/
def calculate_lead_time (first_commit : Int) (merged_at : Option Int) (deploy_time : Int) : ℚ :=
  match merged_at with
  | none => max (((deploy_time - first_commit : Int) : ℚ) / 3600) (1 / 10)
  | some m =>
      if deploy_time < m then max (((deploy_time - first_commit : Int) : ℚ) / 3600) (1 / 10)
      else ((deploy_time - first_commit : Int) : ℚ) / 3600

/-- Embeds `calculate_failure_rate`: `0.0` on zero total, else the
percentage `failed / total * 100`. -/
def calculate_failure_rate (total_deployments failed_deployments : Nat) : ℚ :=
  if total_deployments == 0 then 0
  else ((failed_deployments : ℚ) / (total_deployments : ℚ)) * 100

/-- Embeds `calculate_mttr`: `0.0` when the closing time is absent or
precedes creation, else the hour delta. -/
def calculate_mttr (created_at : Int) (closed_at : Option Int) : ℚ :=
  match closed_at with
  | none => 0
  | some c => if c < created_at then 0 else ((c - created_at : Int) : ℚ) / 3600

/-- Insertion into a sorted list (helper embedding Python `sorted`). -/
def insertSorted (x : ℚ) : List ℚ → List ℚ
  | [] => [x]
  | y :: ys => if x ≤ y then x :: y :: ys else y :: insertSorted x ys

/-- Ascending insertion sort, embedding Python `sorted` on numbers. -/
def sortQ (xs : List ℚ) : List ℚ := xs.foldr insertSorted []

/-- Embeds `median` (src/dora_calculations.py): `0.0` on an empty list,
the middle sorted element for odd length, the average of the two middle
sorted elements for even length. -/
def median (xs : List ℚ) : ℚ :=
  if xs.isEmpty then 0
  else
    let s := sortQ xs
    let n := s.length
    if n % 2 == 0 then (s.getD (n / 2 - 1) 0 + s.getD (n / 2) 0) / 2
    else s.getD (n / 2) 0

/-- Python `sum(xs) / len(xs) if xs else 0.0`, the mean reducer used by
the src/app aggregation variant. -/
def meanQ (xs : List ℚ) : ℚ := if xs.isEmpty then 0 else xs.sum / (xs.length : ℚ)

/-- Python `round(x, 3)` modelled over ℚ: round `x * 1000` to the
nearest integer and divide back.  (Binary floating-point representation
artifacts and the tie-to-even rule are not modelled; no claim depends on
values within 1/2000 of a rounding boundary.) -/
def round3 (x : ℚ) : ℚ := ((round (x * 1000) : ℤ) : ℚ) / 1000

/-- The §3 production-classification predicate exactly as the spec words
it: true iff the environment label contains one of `prod`, `production`,
`live`, or the embedded workflow/job name contains one of `deploy`,
`prod`, `release` (case-insensitive substring match; absent fields count
as empty). -/
def spec_production_classification (environment workflowName : Option String) : Bool :=
  anyTermIn ["prod", "production", "live"] (lowerStr (environment.getD "")) ||
  anyTermIn ["deploy", "prod", "release"] (lowerStr (workflowName.getD ""))

/-- The four measures one aggregation pass computes for a repository
and day (the values persisted into `dora_metrics`). -/
structure Measures where
  deployment_frequency : Nat
  lead_time_hours : ℚ
  change_failure_rate : ℚ
  mttr_hours : ℚ
deriving DecidableEq, Repr

/-- The successful deployments of the repository whose creation time
lies in the window — the rows the deployment-frequency query of
src/metrics_processor.py selects (no production filter appears there). -/
def rootWindowDeployments (db : DB) (repo : Nat) (s e : Int) : List Deployment :=
  db.deployments.filter fun d =>
    d.repo_id == repo && inWindow s e d.created_at && d.status == "success"

/-- The lead times collected by src/metrics_processor.py: one per
(windowed successful deployment, linked PR) join row, computed from the
PR's first commit time with `merged_at = None`; plus, for each such
deployment with no link row, the degenerate direct-commit lead time. -/
def rootLeadTimes (db : DB) (repo : Nat) (s e : Int) : List ℚ :=
  ((rootWindowDeployments db repo s e).flatMap fun d =>
    (db.links.filter fun l => l.1 == d.deployment_id).flatMap fun l =>
      (db.pull_requests.filter fun pr => pr.pr_id == l.2).map fun pr =>
        calculate_lead_time pr.first_commit_at none d.created_at) ++
  ((rootWindowDeployments db repo s e).filter fun d =>
      !(db.links.any fun l => l.1 == d.deployment_id)).map fun d =>
    calculate_lead_time d.created_at none d.created_at

/-- The change-failure numerator of src/metrics_processor.py:
`COUNT(*)` over the join of incidents (same repository, incident flag
set) with deployments (matching id, created in the window) — it counts
join rows, i.e. incidents, not distinct deployments. -/
def rootFailedCount (db : DB) (repo : Nat) (s e : Int) : Nat :=
  ((db.incidents.filter fun i => i.repo_id == repo && i.is_incident).map fun i =>
    (db.deployments.filter fun d =>
      i.deployment_id == some d.deployment_id && inWindow s e d.created_at).length).sum

/-- The restore times of src/metrics_processor.py: incidents of the
repository with the incident flag set and a closing time inside the
`created_at` window `[s, e]` (both ends inclusive). -/
def rootRestoreTimes (db : DB) (repo : Nat) (s e : Int) : List ℚ :=
  (db.incidents.filter fun i =>
    i.repo_id == repo && i.is_incident &&
      (match i.closed_at with
       | some c => inWindow s e c
       | none => false)).map fun i => calculate_mttr i.created_at i.closed_at

/-- Embeds the measure computation of `process_repo_metrics` in
src/metrics_processor.py: unfiltered successful-deployment count,
median lead time, failure rate from the incident-row count, and median
restore time over the window on `closed_at`. -/
def rootMetrics (db : DB) (repo : Nat) (s e : Int) : Measures :=
  let deployment_count := (rootWindowDeployments db repo s e).length
  { deployment_frequency := deployment_count
    lead_time_hours := median (rootLeadTimes db repo s e)
    change_failure_rate := calculate_failure_rate deployment_count (rootFailedCount db repo s e)
    mttr_hours := median (rootRestoreTimes db repo s e) }

/-- The production-filtered deployments of src/app/metrics_processor.py:
the windowed successful deployments that `is_production_deployment`
accepts (environment column plus payload workflow name). -/
def appProdDeployments (db : DB) (repo : Nat) (s e : Int) : List Deployment :=
  (rootWindowDeployments db repo s e).filter fun d =>
    is_production_deployment d.environment d.workflow_name

/-- The lead times collected by src/app/metrics_processor.py: one per
linked PR of each production deployment, plus direct-commit entries for
windowed successful unlinked deployments restricted (via the
`IN prod_deployment_ids` clause, with the `(0,)` placeholder when the
production list is empty) to the production ids. -/
def appLeadTimes (db : DB) (repo : Nat) (s e : Int) : List ℚ :=
  let prod := appProdDeployments db repo s e
  let prodIds := prod.map (fun d => d.deployment_id)
  let idList := if prodIds.isEmpty then [0] else prodIds
  (prod.flatMap fun d =>
    (db.links.filter fun l => l.1 == d.deployment_id).flatMap fun l =>
      (db.pull_requests.filter fun pr => pr.pr_id == l.2).map fun pr =>
        calculate_lead_time pr.first_commit_at none d.created_at) ++
  ((rootWindowDeployments db repo s e).filter fun d =>
      !(db.links.any fun l => l.1 == d.deployment_id) &&
        idList.contains d.deployment_id).map fun d =>
    calculate_lead_time d.created_at none d.created_at

/-- The change-failure numerator of src/app/metrics_processor.py:
`COUNT(DISTINCT i.deployment_id)` over the repository's incidents whose
deployment reference lies among the repository's deployments created in
the window — with no incident-flag filter and no status filter. -/
def appFailedCount (db : DB) (repo : Nat) (s e : Int) : Nat :=
  ((db.incidents.filter fun i =>
      i.repo_id == repo &&
        db.deployments.any fun d =>
          d.repo_id == repo && inWindow s e d.created_at &&
            i.deployment_id == some d.deployment_id).filterMap
    (fun i => i.deployment_id)).dedup.length

/-- The restore times of src/app/metrics_processor.py: incidents of the
repository with a non-null closing time whose calendar date equals the
metric date — with no incident-flag filter. -/
def appRestoreTimes (db : DB) (repo : Nat) (metric_date : Int) : List ℚ :=
  (db.incidents.filter fun i =>
    i.repo_id == repo &&
      (match i.closed_at with
       | some c => dateOf c == metric_date
       | none => false)).map fun i => calculate_mttr i.created_at i.closed_at

/-- Embeds the measure computation of `process_repo_metrics` in
src/app/metrics_processor.py: production-filtered deployment count,
mean lead time, failure rate from the distinct-deployment count, mean
restore time attributed by day of resolution; the three rational
measures are rounded to three decimals before persisting. -/
def appMetrics (db : DB) (repo : Nat) (s e metric_date : Int) : Measures :=
  let deployment_count := (appProdDeployments db repo s e).length
  { deployment_frequency := deployment_count
    lead_time_hours := round3 (meanQ (appLeadTimes db repo s e))
    change_failure_rate :=
      round3 (calculate_failure_rate deployment_count (appFailedCount db repo s e))
    mttr_hours := round3 (meanQ (appRestoreTimes db repo metric_date)) }

/-- A `dora_metrics` row: key `(repo_id, metric_date)`, the four
measures, and the `last_updated` timestamp. -/
structure DailyMetric where
  repo_id : Nat
  metric_date : Int
  deployment_frequency : Nat
  lead_time_hours : ℚ
  change_failure_rate : ℚ
  mttr_hours : ℚ
  last_updated : Int
deriving DecidableEq, Repr

/-- Whether two metric rows would collide on the `(repo_id,
metric_date)` uniqueness constraint. -/
def keyMatch (r : DailyMetric) (repo : Nat) (date : Int) : Bool :=
  r.repo_id == repo && r.metric_date == date

/-- The `DO UPDATE` arm of the metrics upsert applied to one stored
row: a row colliding on the key gets the new row's four measures and a
refreshed `last_updated`; any other row is untouched. -/
def overwriteRow (row : DailyMetric) (now : Int) (r : DailyMetric) : DailyMetric :=
  if keyMatch r row.repo_id row.metric_date then
    { r with
      deployment_frequency := row.deployment_frequency
      lead_time_hours := row.lead_time_hours
      change_failure_rate := row.change_failure_rate
      mttr_hours := row.mttr_hours
      last_updated := now }
  else r

/-- Embeds the `INSERT ... ON CONFLICT (repo_id, metric_date) DO UPDATE`
statement shared by both aggregation variants: a present key has its
row's four measures overwritten and `last_updated` refreshed to `now`;
an absent key appends the new row (whose `last_updated` defaults to
`NOW()`, here `now`). -/
def upsertMetric (tbl : List DailyMetric) (row : DailyMetric) (now : Int) : List DailyMetric :=
  if tbl.any fun r => keyMatch r row.repo_id row.metric_date then
    tbl.map (overwriteRow row now)
  else tbl ++ [{ row with last_updated := now }]

/-- Packages computed measures as the row the aggregators insert (the
`last_updated` placeholder is irrelevant: the upsert always sets it). -/
def measuresRow (repo : Nat) (date : Int) (m : Measures) : DailyMetric :=
  { repo_id := repo, metric_date := date
    deployment_frequency := m.deployment_frequency
    lead_time_hours := m.lead_time_hours
    change_failure_rate := m.change_failure_rate
    mttr_hours := m.mttr_hours
    last_updated := 0 }

/-- One full src/metrics_processor.py aggregation pass for a repository
and day: compute the measures and upsert the row. -/
def rootStore (db : DB) (tbl : List DailyMetric) (repo : Nat) (s e date now : Int) :
    List DailyMetric :=
  upsertMetric tbl (measuresRow repo date (rootMetrics db repo s e)) now

/-- One full src/app/metrics_processor.py aggregation pass for a
repository and day: compute the measures and upsert the row. -/
def appStore (db : DB) (tbl : List DailyMetric) (repo : Nat) (s e date now : Int) :
    List DailyMetric :=
  upsertMetric tbl (measuresRow repo date (appMetrics db repo s e date)) now

/-- A metric row with its `last_updated` column projected away. -/
def stripRow (r : DailyMetric) : Nat × Int × Nat × ℚ × ℚ × ℚ :=
  (r.repo_id, r.metric_date, r.deployment_frequency, r.lead_time_hours,
    r.change_failure_rate, r.mttr_hours)

/-- A metrics table up to the `last_updated` column. -/
def stripTable (tbl : List DailyMetric) : List (Nat × Int × Nat × ℚ × ℚ × ℚ) :=
  tbl.map stripRow

/-- The deployment id the incident-linking SQL selects for repository
`repo` and incident creation time `t`: among the repository's
deployments created within ±24 hours of `t`, one minimising the
absolute time delta (`ORDER BY ABS(...)` / `ROW_NUMBER` with an
unspecified tie order, embedded as the first minimum in table order);
`none` when the window holds no deployment. -/
def closestDeployment (deps : List Deployment) (repo : Nat) (t : Int) : Option Nat :=
  match deps.filter fun d =>
      d.repo_id == repo && inWindow (t - 86400) (t + 86400) d.created_at with
  | [] => none
  | c :: cs =>
      some ((cs.foldl
        (fun best d => if |d.created_at - t| < |best.created_at - t| then d else best)
        c).deployment_id)

/-- The effect of the `fix_data_links` incident-linking `UPDATE` on one
incident row: an incident whose deployment reference is null and which
has a candidate deployment in the ±24h window gets the closest one; any
other row is left untouched. -/
def fixRow (deps : List Deployment) (i : Incident) : Incident :=
  if i.deployment_id.isNone then
    match closestDeployment deps i.repo_id i.created_at with
    | none => i
    | some did => { i with deployment_id := some did }
  else i

/-- Embeds step 3 of `fix_data_links` (src/fix_data_links.py): apply
`fixRow` to every incident row. -/
def fixIncidentLinks (db : DB) : DB :=
  { db with incidents := db.incidents.map (fixRow db.deployments) }

/-- The effect of the nearest-deployment `UPDATE` of
`handle_issues_event` (src/webhook_server.py lines 155–167) on one
incident row: the row of the given issue gets `deployment_id` set to
the subquery result — unconditionally, even when the current reference
is non-null, and even when the subquery yields `NULL`. -/
def relinkRow (deps : List Deployment) (issue : Nat) (i : Incident) : Incident :=
  if i.issue_id == issue then
    { i with deployment_id := closestDeployment deps i.repo_id i.created_at }
  else i

/-- Embeds the `handle_issues_event` linking statement: apply
`relinkRow` for the given issue to every incident row. -/
def webhookRelink (db : DB) (issue : Nat) : DB :=
  { db with incidents := db.incidents.map (relinkRow db.deployments issue) }

/-- `INSERT ... ON CONFLICT DO NOTHING` into `deployment_prs`, whose
primary key is the whole pair: each candidate pair is appended only if
absent. -/
def addLinks (links : List (Nat × Nat)) (pairs : List (Nat × Nat)) : List (Nat × Nat) :=
  pairs.foldl (fun acc p => if acc.contains p then acc else acc ++ [p]) links

/-- The deployment/PR pairs the `fix_data_links` linking query selects:
same repository, deployment commit hash equal to the PR's merge commit
hash. -/
def matchedPairs (db : DB) : List (Nat × Nat) :=
  db.deployments.flatMap fun d =>
    (db.pull_requests.filter fun pr =>
      d.commit_sha == pr.commit_sha && d.repo_id == pr.repo_id).map fun pr =>
      (d.deployment_id, pr.pr_id)

/-- Embeds step 1 of `fix_data_links` (src/fix_data_links.py): insert
every matching deployment/PR pair into the link table, ignoring
duplicates. -/
def linkPRsToDeployments (db : DB) : DB :=
  { db with links := addLinks db.links (matchedPairs db) }

/-- The deployment/PR pairs the `link_pr_to_deployment` query selects
for one PR: every deployment of the repository with the given commit
hash, paired with that PR. -/
def prLinkPairs (db : DB) (repo pid : Nat) (sha : String) : List (Nat × Nat) :=
  (db.deployments.filter fun d => d.repo_id == repo && d.commit_sha == sha).map fun d =>
    (d.deployment_id, pid)

/-- Embeds `link_pr_to_deployment` (src/webhook_server.py): for one PR
and commit hash, insert a link to every deployment of the repository
with that commit hash, ignoring duplicates. -/
def link_pr_to_deployment (db : DB) (repo pid : Nat) (sha : String) : DB :=
  { db with links := addLinks db.links (prLinkPairs db repo pid sha) }

/-- The deployment-frequency value claimed by the spec (§4.3 step 1):
the number of the repository's successful deployments created in the
window that the §3 classification accepts. -/
def spec_deployment_frequency (db : DB) (repo : Nat) (s e : Int) : Nat :=
  (db.deployments.filter fun d =>
    d.repo_id == repo && inWindow s e d.created_at && d.status == "success" &&
      spec_production_classification d.environment d.workflow_name).length

/-- The change-failure numerator claimed by the spec (§4.3 step 4): the
number of distinct deployments of the repository created in the window
having at least one linked incident with the incident flag set. -/
def spec_failed_distinct (db : DB) (repo : Nat) (s e : Int) : Nat :=
  (db.deployments.filter fun d =>
    d.repo_id == repo && inWindow s e d.created_at &&
      db.incidents.any fun i =>
        i.is_incident && i.deployment_id == some d.deployment_id).length

/-- The restore-time selection claimed by the spec (§4.3 step 5): the
repository's incidents with the incident flag set, a non-null closing
time, and a closing date equal to the metric date. -/
def spec_restore_incidents (db : DB) (repo : Nat) (metric_date : Int) : List Incident :=
  db.incidents.filter fun i =>
    i.repo_id == repo && i.is_incident &&
      (match i.closed_at with
       | some c => dateOf c == metric_date
       | none => false)

/-- A snapshot with one successful non-production (staging) deployment
inside the day window of day 0.  Deployment fields in order:
deployment id, repository id, environment, status, creation time,
commit hash, workflow name. -/
def dbStaging : DB :=
  ⟨[⟨11, 1, some "staging", "success", 100, "abc", none⟩], [], [], []⟩

/-- A snapshot with one successful production deployment and two
flagged incidents both linked to it.  Incident fields in order: issue
id, repository id, creation time, closing time, incident flag,
deployment reference. -/
def dbTwoIncidents : DB :=
  ⟨[⟨11, 1, some "production", "success", 100, "abc", none⟩], [],
    [⟨101, 1, 200, none, true, some 11⟩, ⟨102, 1, 300, none, true, some 11⟩], []⟩

/-- A snapshot with a single non-flagged (`is_incident = false`)
incident closed three hours after creation on day 0. -/
def dbNonIncident : DB :=
  ⟨[], [], [⟨101, 1, 0, some 10800, false, none⟩], []⟩

/-- A snapshot with one incident already linked to deployment 5 while
the deployments table holds no row at all. -/
def dbLinked : DB :=
  ⟨[], [], [⟨1, 1, 0, none, true, some 5⟩], []⟩

/-- A snapshot with one unlinked incident and one deployment of the
same repository created 4000 seconds after it. -/
def dbUnlinked : DB :=
  ⟨[⟨7, 1, some "production", "success", 5000, "abc", none⟩], [],
    [⟨1, 1, 1000, none, true, none⟩], []⟩

/-- A snapshot with one deployment and one merged PR sharing commit
hash `abc` in repository 1, and no links yet.  PR fields in order: PR
id, repository id, creation time, merge time, first-commit time,
commit hash. -/
def dbShared : DB :=
  ⟨[⟨7, 1, some "production", "success", 5000, "abc", none⟩],
    [⟨3, 1, 0, some 100, 0, "abc"⟩], [], []⟩

/-- The empty snapshot. -/
def dbEmpty : DB := ⟨[], [], [], []⟩

/-- Default incident used with `List.getD` when addressing incident
rows by position. -/
def dummyIncident : Incident := ⟨0, 0, 0, none, false, none⟩

/-- The fold inside `closestDeployment` returns an element of the
candidate list. -/
theorem pickClosest_mem (t : Int) :
    ∀ (cs : List Deployment) (c : Deployment),
      cs.foldl (fun best d => if |d.created_at - t| < |best.created_at - t| then d else best) c
        ∈ c :: cs := by
  intro cs
  induction cs with
  | nil => intro c; simp
  | cons d ds ih =>
    intro c
    simp only [List.foldl_cons]
    by_cases h : |d.created_at - t| < |c.created_at - t|
    · rw [if_pos h]
      exact List.mem_cons_of_mem c (ih d)
    · rw [if_neg h]
      rcases List.mem_cons.mp (ih c) with h1 | h1
      · rw [h1]; exact List.mem_cons_self _ _
      · exact List.mem_cons_of_mem _ (List.mem_cons_of_mem _ h1)

/-- The fold inside `closestDeployment` minimises the absolute time
delta over the candidate list. -/
theorem pickClosest_min (t : Int) :
    ∀ (cs : List Deployment) (c : Deployment), ∀ d' ∈ c :: cs,
      |(cs.foldl (fun best d => if |d.created_at - t| < |best.created_at - t| then d else best)
          c).created_at - t| ≤ |d'.created_at - t| := by
  intro cs
  induction cs with
  | nil =>
    intro c d' hd'
    rcases List.mem_cons.mp hd' with h | h
    · rw [h]; simp
    · exact absurd h (List.not_mem_nil d')
  | cons d ds ih =>
    intro c d' hd'
    simp only [List.foldl_cons]
    by_cases h : |d.created_at - t| < |c.created_at - t|
    · rw [if_pos h]
      rcases List.mem_cons.mp hd' with h1 | h1
      · rw [h1]
        exact le_trans (ih d d (List.mem_cons_self _ _)) (le_of_lt h)
      · exact ih d d' h1
    · rw [if_neg h]
      rcases List.mem_cons.mp hd' with h1 | h1
      · rw [h1]; exact ih c c (List.mem_cons_self _ _)
      · rcases List.mem_cons.mp h1 with h2 | h2
        · rw [h2]
          exact le_trans (ih c c (List.mem_cons_self _ _)) (not_lt.mp h)
        · exact ih c d' (List.mem_cons_of_mem _ h2)

/-- The SQL candidate condition of the incident-linking queries, as a
proposition: same repository and creation time within ±24 hours. -/
theorem linkCand_iff (repo : Nat) (t : Int) (d : Deployment) :
    (d.repo_id == repo && inWindow (t - 86400) (t + 86400) d.created_at) = true ↔
      (d.repo_id = repo ∧ |d.created_at - t| ≤ 86400) := by
  simp only [inWindow, Bool.and_eq_true, beq_iff_eq, decide_eq_true_eq, abs_le]
  constructor
  · rintro ⟨h1, h2, h3⟩; exact ⟨h1, by omega, by omega⟩
  · rintro ⟨h1, h2, h3⟩; exact ⟨h1, by omega, by omega⟩

/-- Characterisation of `closestDeployment`: with at least one
deployment of the repository within ±24 hours of `t` it returns the id
of a candidate minimising the absolute delta; with none it returns
`none`. -/
theorem closestDeployment_spec (deps : List Deployment) (repo : Nat) (t : Int) :
    ((∃ d ∈ deps, d.repo_id = repo ∧ |d.created_at - t| ≤ 86400) →
      ∃ d ∈ deps, d.repo_id = repo ∧ |d.created_at - t| ≤ 86400 ∧
        closestDeployment deps repo t = some d.deployment_id ∧
        ∀ d' ∈ deps, d'.repo_id = repo → |d'.created_at - t| ≤ 86400 →
          |d.created_at - t| ≤ |d'.created_at - t|) ∧
    ((∀ d ∈ deps, d.repo_id = repo → 86400 < |d.created_at - t|) →
      closestDeployment deps repo t = none) := by
  cases hf : deps.filter
      (fun d => d.repo_id == repo && inWindow (t - 86400) (t + 86400) d.created_at) with
  | nil =>
    constructor
    · rintro ⟨d, hd, hrepo, habs⟩
      have : d ∈ deps.filter
          (fun d => d.repo_id == repo && inWindow (t - 86400) (t + 86400) d.created_at) :=
        List.mem_filter.mpr ⟨hd, (linkCand_iff repo t d).mpr ⟨hrepo, habs⟩⟩
      rw [hf] at this
      exact absurd this (List.not_mem_nil d)
    · intro _
      unfold closestDeployment
      rw [hf]
  | cons c cs =>
    constructor
    · intro _
      have hmem := pickClosest_mem t cs c
      rw [← hf] at hmem
      obtain ⟨hin, hcand⟩ := List.mem_filter.mp hmem
      obtain ⟨hrepo, habs⟩ := (linkCand_iff repo t _).mp hcand
      refine ⟨_, hin, hrepo, habs, ?_, ?_⟩
      · unfold closestDeployment
        rw [hf]
      · intro d' hd' hrepo' habs'
        have : d' ∈ deps.filter
            (fun d => d.repo_id == repo && inWindow (t - 86400) (t + 86400) d.created_at) :=
          List.mem_filter.mpr ⟨hd', (linkCand_iff repo t d').mpr ⟨hrepo', habs'⟩⟩
        rw [hf] at this
        exact pickClosest_min t cs c d' this
    · intro hno
      have hc : c ∈ deps.filter
          (fun d => d.repo_id == repo && inWindow (t - 86400) (t + 86400) d.created_at) := by
        rw [hf]; exact List.mem_cons_self _ _
      obtain ⟨hin, hcand⟩ := List.mem_filter.mp hc
      obtain ⟨hrepo, habs⟩ := (linkCand_iff repo t c).mp hcand
      exact absurd habs (not_le.mpr (hno c hin hrepo))

/-- C1: the claim asserts the event-time predicate
`detect_production_deployment` and the metrics-time predicate
`is_production_deployment` return the same boolean on every input; they
do not: on environment label `main` (a `PRODUCTION_KEYWORDS` entry that
is not in the §3 keyword sets) the former is false and the latter
true. -/
theorem claim_C1_counterexample :
    detect_production_deployment (some "main") none = false ∧
    is_production_deployment (some "main") none = true :=
  ⟨by decide, by decide⟩

/-- C1 (amended): `detect_production_deployment` agrees with the §3
predicate on every input (environment tested against
`prod`/`production`/`live`, workflow name against
`deploy`/`prod`/`release`, case-insensitive substring, absent fields
empty); `is_production_deployment` instead tests the six-entry
`PRODUCTION_KEYWORDS` list against both fields; both return false when
both fields are absent, but the two implementations are not equal as
functions. -/
theorem claim_C1_amended :
    (∀ env wf : Option String,
        detect_production_deployment env wf = spec_production_classification env wf) ∧
    (∀ env wf : Option String,
        is_production_deployment env wf
          = (anyTermIn PRODUCTION_KEYWORDS (lowerStr (env.getD "")) ||
             anyTermIn PRODUCTION_KEYWORDS (lowerStr (wf.getD "")))) ∧
    detect_production_deployment none none = false ∧
    is_production_deployment none none = false ∧
    ¬ (∀ env wf : Option String,
        detect_production_deployment env wf = is_production_deployment env wf) := by
  refine ⟨?_, ?_, by decide, by decide, ?_⟩
  · intro env wf
    unfold detect_production_deployment spec_production_classification
    cases h : anyTermIn ["prod", "production", "live"] (lowerStr (env.getD "")) <;>
      simp [h]
  · intro env wf
    unfold is_production_deployment
    cases h : anyTermIn PRODUCTION_KEYWORDS (lowerStr (env.getD "")) <;> simp [h]
  · intro h
    have := h (some "main") none
    rw [(by decide : detect_production_deployment (some "main") none = false),
      (by decide : is_production_deployment (some "main") none = true)] at this
    exact Bool.false_ne_true this

/-- C8: `calculate_lead_time` returns the 0.1-floored hour delta when
the merge time is absent or the deploy time precedes it, the unfloored
hour delta otherwise; the fallback branches are strictly positive, and
same-instant direct commits yield exactly 0.1. -/
theorem claim_C8_lead_time :
    (∀ fc dt : Int,
        calculate_lead_time fc none dt = max (((dt - fc : Int) : ℚ) / 3600) (1 / 10)) ∧
    (∀ fc m dt : Int, dt < m →
        calculate_lead_time fc (some m) dt = max (((dt - fc : Int) : ℚ) / 3600) (1 / 10)) ∧
    (∀ fc m dt : Int, m ≤ dt →
        calculate_lead_time fc (some m) dt = ((dt - fc : Int) : ℚ) / 3600) ∧
    (∀ fc dt : Int, 0 < calculate_lead_time fc none dt) ∧
    (∀ fc m dt : Int, dt < m → 0 < calculate_lead_time fc (some m) dt) ∧
    (∀ t : Int, calculate_lead_time t none t = 1 / 10) := by
  have hpos : ∀ x : ℚ, (0 : ℚ) < max x (1 / 10) :=
    fun x => lt_of_lt_of_le (by norm_num) (le_max_right x (1 / 10))
  refine ⟨fun fc dt => rfl, ?_, ?_, fun fc dt => hpos _, ?_, ?_⟩
  · intro fc m dt h
    simp [calculate_lead_time, h]
  · intro fc m dt h
    simp [calculate_lead_time, not_lt.mpr h]
  · intro fc m dt h
    rw [(by simp [calculate_lead_time, h] :
      calculate_lead_time fc (some m) dt = max (((dt - fc : Int) : ℚ) / 3600) (1 / 10))]
    exact hpos _
  · intro t
    show max (((t - t : Int) : ℚ) / 3600) (1 / 10) = 1 / 10
    norm_num

/-- Witness for C8: a hotfix deployed five seconds after the first
commit and before its nominal merge time gets the floored lead time. -/
theorem claim_C8_lead_time_witness :
    calculate_lead_time 0 (some 10) 5 = max (((5 - 0 : Int) : ℚ) / 3600) (1 / 10) :=
  claim_C8_lead_time.2.1 0 10 5 (by decide)

/-- C2: the claim asserts the persisted deployment frequency is the
production-filtered (§3) count; the src/metrics_processor.py variant
applies no production filter, so a successful staging deployment in the
window is counted although the §3 count is zero. -/
theorem claim_C2_counterexample :
    (rootMetrics dbStaging 1 0 86400).deployment_frequency
      ≠ spec_deployment_frequency dbStaging 1 0 86400 := by decide

/-- C2 (amended): the src variant's deployment frequency counts every
successful deployment of the repository in the window with no
production filter; the src/app variant counts those the
`is_production_deployment` predicate (not the §3 predicate) accepts. -/
theorem claim_C2_amended :
    ∀ (db : DB) (repo : Nat) (s e date : Int),
      (rootMetrics db repo s e).deployment_frequency
        = (db.deployments.filter fun d =>
            d.repo_id == repo && inWindow s e d.created_at && d.status == "success").length ∧
      (appMetrics db repo s e date).deployment_frequency
        = (db.deployments.filter fun d =>
            d.repo_id == repo && inWindow s e d.created_at && d.status == "success" &&
              is_production_deployment d.environment d.workflow_name).length := by
  intro db repo s e date
  refine ⟨rfl, ?_⟩
  show (appProdDeployments db repo s e).length = _
  unfold appProdDeployments rootWindowDeployments
  rw [List.filter_filter]
  apply congrArg
  apply List.filter_congr
  intro d _
  cases h1 : (d.repo_id == repo) <;>
    cases h2 : inWindow s e d.created_at <;>
      cases h3 : (d.status == "success") <;>
        cases h4 : is_production_deployment d.environment d.workflow_name <;> simp [h1, h2, h3, h4]

/-- C3: the claim asserts the failure-rate numerator counts distinct
deployments; the src/metrics_processor.py variant counts incident join
rows, so one windowed deployment with two flagged incidents yields a
change failure rate of 200% where the claimed formula gives 100%. -/
theorem claim_C3_counterexample :
    (rootMetrics dbTwoIncidents 1 0 86400).change_failure_rate
      ≠ calculate_failure_rate (rootMetrics dbTwoIncidents 1 0 86400).deployment_frequency
          (spec_failed_distinct dbTwoIncidents 1 0 86400) := by
  have e1 : (rootMetrics dbTwoIncidents 1 0 86400).change_failure_rate
      = calculate_failure_rate (rootWindowDeployments dbTwoIncidents 1 0 86400).length
          (rootFailedCount dbTwoIncidents 1 0 86400) := rfl
  have e2 : (rootWindowDeployments dbTwoIncidents 1 0 86400).length = 1 := by decide
  have e3 : rootFailedCount dbTwoIncidents 1 0 86400 = 2 := by decide
  have e4 : (rootMetrics dbTwoIncidents 1 0 86400).deployment_frequency = 1 := by decide
  have e5 : spec_failed_distinct dbTwoIncidents 1 0 86400 = 1 := by decide
  rw [e1, e2, e3, e4, e5]
  norm_num [calculate_failure_rate]

/-- C3 (amended): the src variant's failure-rate numerator is the
number of flagged-incident join rows against windowed deployments
(counting an incident per row, not distinct deployments); the src/app
variant's is the number of distinct deployment references among the
repository's incidents pointing at windowed deployments, with no
incident-flag filter; in both variants the rate is
`calculate_failure_rate` of the variant's own frequency and numerator
(rounded to three decimals in src/app), hence 0.0 whenever the
frequency is zero. -/
theorem claim_C3_amended :
    ∀ (db : DB) (repo : Nat) (s e date : Int),
      (rootMetrics db repo s e).change_failure_rate
        = calculate_failure_rate (rootMetrics db repo s e).deployment_frequency
            (rootFailedCount db repo s e) ∧
      (appMetrics db repo s e date).change_failure_rate
        = round3 (calculate_failure_rate (appMetrics db repo s e date).deployment_frequency
            (appFailedCount db repo s e)) ∧
      ((rootMetrics db repo s e).deployment_frequency = 0 →
        (rootMetrics db repo s e).change_failure_rate = 0) ∧
      ((appMetrics db repo s e date).deployment_frequency = 0 →
        (appMetrics db repo s e date).change_failure_rate = 0) := by
  intro db repo s e date
  refine ⟨rfl, rfl, ?_, ?_⟩
  · intro h
    show calculate_failure_rate (rootWindowDeployments db repo s e).length
        (rootFailedCount db repo s e) = 0
    rw [show (rootWindowDeployments db repo s e).length
        = (rootMetrics db repo s e).deployment_frequency from rfl, h]
    simp [calculate_failure_rate]
  · intro h
    show round3 (calculate_failure_rate (appProdDeployments db repo s e).length
        (appFailedCount db repo s e)) = 0
    rw [show (appProdDeployments db repo s e).length
        = (appMetrics db repo s e date).deployment_frequency from rfl, h]
    simp [calculate_failure_rate, round3]

/-- Witness for C3 (amended): on the empty snapshot the frequency is
zero and the stored change failure rate is 0.0 in the src variant. -/
theorem claim_C3_amended_witness :
    (rootMetrics dbEmpty 1 0 86400).deployment_frequency = 0 ∧
    (rootMetrics dbEmpty 1 0 86400).change_failure_rate = 0 :=
  ⟨by decide, (claim_C3_amended dbEmpty 1 0 86400 0).2.2.1 (by decide)⟩

/-- C4: the claim restricts the restore-time selection to incidents
with `is_incident = true`; the src/app variant has no such filter, so a
non-flagged issue closed three hours after creation on the metric date
is averaged in (persisting 3.0) although the claimed selection is empty
and both claimed reducers give 0.0. -/
theorem claim_C4_counterexample :
    (appMetrics dbNonIncident 1 0 86400 0).mttr_hours = 3 ∧
    median ((spec_restore_incidents dbNonIncident 1 0).map fun i =>
      calculate_mttr i.created_at i.closed_at) = 0 ∧
    meanQ ((spec_restore_incidents dbNonIncident 1 0).map fun i =>
      calculate_mttr i.created_at i.closed_at) = 0 := by
  have hsel : spec_restore_incidents dbNonIncident 1 0 = [] := rfl
  refine ⟨?_, by rw [hsel]; rfl, by rw [hsel]; rfl⟩
  have h : appRestoreTimes dbNonIncident 1 0 = [calculate_mttr 0 (some 10800)] := rfl
  show round3 (meanQ (appRestoreTimes dbNonIncident 1 0)) = 3
  rw [h]
  norm_num [calculate_mttr, meanQ, round3]

/-- C4 (amended): the src variant takes the median of restore times
over the repository's flagged incidents whose closing time lies in the
inclusive `[start, end]` window (so one closed exactly at the next
midnight is included); the src/app variant takes the rounded mean over
the repository's incidents — flagged or not — closed on the metric
date; an empty selection yields 0.0 in both. -/
theorem claim_C4_amended :
    ∀ (db : DB) (repo : Nat) (s e date : Int),
      (rootMetrics db repo s e).mttr_hours
        = median ((db.incidents.filter fun i =>
            i.repo_id == repo && i.is_incident &&
              (match i.closed_at with
               | some c => inWindow s e c
               | none => false)).map fun i => calculate_mttr i.created_at i.closed_at) ∧
      (appMetrics db repo s e date).mttr_hours
        = round3 (meanQ ((db.incidents.filter fun i =>
            i.repo_id == repo &&
              (match i.closed_at with
               | some c => dateOf c == date
               | none => false)).map fun i => calculate_mttr i.created_at i.closed_at)) ∧
      (rootRestoreTimes db repo s e = [] → (rootMetrics db repo s e).mttr_hours = 0) ∧
      (appRestoreTimes db repo date = [] → (appMetrics db repo s e date).mttr_hours = 0) := by
  intro db repo s e date
  refine ⟨rfl, rfl, ?_, ?_⟩
  · intro h
    show median (rootRestoreTimes db repo s e) = 0
    rw [h]; rfl
  · intro h
    show round3 (meanQ (appRestoreTimes db repo date)) = 0
    rw [h]
    norm_num [meanQ, round3]

/-- Witness for C4 (amended): the empty snapshot has an empty selection
and a stored `mttr_hours` of 0.0 in the src variant. -/
theorem claim_C4_amended_witness :
    rootRestoreTimes dbEmpty 1 0 86400 = [] ∧
    (rootMetrics dbEmpty 1 0 86400).mttr_hours = 0 :=
  ⟨rfl, (claim_C4_amended dbEmpty 1 0 86400 0).2.2.1 rfl⟩

/-- C10: the normal branch of `calculate_lead_time` has no lower clamp:
with a merge time at or before the deploy time and a first commit after
the deploy time the result is strictly negative. -/
theorem claim_C10_negative_lead_time :
    ∃ fc m dt : Int, m ≤ dt ∧ dt < fc ∧ calculate_lead_time fc (some m) dt < 0 :=
  ⟨7200, 0, 3600, by decide, by decide, by norm_num [calculate_lead_time]⟩

/-- C5: for an incident with a null deployment reference, both linking
passes set the reference to `closestDeployment`, which returns the
nearest same-repository deployment within ±24 hours when one exists and
`none` (leaving the reference null) otherwise. -/
theorem claim_C5_nearest_linking :
    (∀ (db : DB), (fixIncidentLinks db).incidents = db.incidents.map (fixRow db.deployments) ∧
        ∀ issue : Nat,
          (webhookRelink db issue).incidents
            = db.incidents.map (relinkRow db.deployments issue)) ∧
    (∀ (deps : List Deployment) (i : Incident), i.deployment_id = none →
        (fixRow deps i).deployment_id = closestDeployment deps i.repo_id i.created_at ∧
        (relinkRow deps i.issue_id i).deployment_id
          = closestDeployment deps i.repo_id i.created_at) ∧
    (∀ (deps : List Deployment) (repo : Nat) (t : Int),
        ((∃ d ∈ deps, d.repo_id = repo ∧ |d.created_at - t| ≤ 86400) →
          ∃ d ∈ deps, d.repo_id = repo ∧ |d.created_at - t| ≤ 86400 ∧
            closestDeployment deps repo t = some d.deployment_id ∧
            ∀ d' ∈ deps, d'.repo_id = repo → |d'.created_at - t| ≤ 86400 →
              |d.created_at - t| ≤ |d'.created_at - t|) ∧
        ((∀ d ∈ deps, d.repo_id = repo → 86400 < |d.created_at - t|) →
          closestDeployment deps repo t = none)) := by
  refine ⟨fun db => ⟨rfl, fun issue => rfl⟩, ?_, fun deps repo t => closestDeployment_spec deps repo t⟩
  intro deps i hnone
  constructor
  · unfold fixRow
    rw [hnone]
    cases hcd : closestDeployment deps i.repo_id i.created_at with
    | none => simp [hnone]
    | some did => simp
  · unfold relinkRow
    simp

/-- Witness for C5: in `dbUnlinked` the single incident is unlinked and
deployment 7 sits 4000 seconds away, so both passes link it to 7. -/
theorem claim_C5_nearest_linking_witness :
    (dbUnlinked.incidents.getD 0 dummyIncident).deployment_id = none ∧
    (fixRow dbUnlinked.deployments (dbUnlinked.incidents.getD 0 dummyIncident)).deployment_id
      = some 7 ∧
    (relinkRow dbUnlinked.deployments 1
        (dbUnlinked.incidents.getD 0 dummyIncident)).deployment_id = some 7 := by
  have h := claim_C5_nearest_linking.2.1 dbUnlinked.deployments
    (dbUnlinked.incidents.getD 0 dummyIncident) (by decide)
  exact ⟨by decide, h.1.trans (by decide), h.2.trans (by decide)⟩

/-- C6: the claim asserts every linking pass preserves non-null
references; the webhook pass does not: on a snapshot whose only
incident is already linked to deployment 5 and whose deployments table
is empty, re-running the webhook linking clears the reference to
null. -/
theorem claim_C6_counterexample :
    (dbLinked.incidents.getD 0 dummyIncident).deployment_id = some 5 ∧
    ((webhookRelink dbLinked 1).incidents.getD 0 dummyIncident).deployment_id = none :=
  ⟨by decide, by decide⟩

/-- C6 (amended): the batch pass (`fix_data_links`) leaves every row
with a non-null deployment reference entirely unchanged, so repeated
batch passes are safe; the webhook pass (`handle_issues_event`)
unconditionally recomputes the reference of the affected issue and can
overwrite or clear a non-null reference. -/
theorem claim_C6_amended :
    (∀ db : DB, (fixIncidentLinks db).incidents = db.incidents.map (fixRow db.deployments)) ∧
    (∀ (deps : List Deployment) (i : Incident),
        i.deployment_id ≠ none → fixRow deps i = i) ∧
    ¬ (∀ (deps : List Deployment) (issue : Nat) (i : Incident),
        i.deployment_id ≠ none → relinkRow deps issue i = i) := by
  refine ⟨fun db => rfl, ?_, ?_⟩
  · intro deps i hne
    unfold fixRow
    cases hd : i.deployment_id with
    | none => exact absurd hd hne
    | some a => simp [hd]
  · intro h
    have := h [] 1 ⟨1, 1, 0, none, true, some 5⟩ (by simp)
    have hval := congrArg Incident.deployment_id this
    rw [(by decide :
      (relinkRow [] 1 ⟨1, 1, 0, none, true, some 5⟩).deployment_id = none)] at hval
    exact Option.noConfusion hval

/-- Witness for C6 (amended): the batch pass leaves the already-linked
incident of `dbLinked` unchanged. -/
theorem claim_C6_amended_witness :
    fixRow dbLinked.deployments (dbLinked.incidents.getD 0 dummyIncident)
      = dbLinked.incidents.getD 0 dummyIncident :=
  claim_C6_amended.2.1 dbLinked.deployments (dbLinked.incidents.getD 0 dummyIncident)
    (by decide)

/-- Membership after the deduplicating link insert: exactly the old
links plus the candidate pairs. -/
theorem mem_addLinks (L P : List (Nat × Nat)) (x : Nat × Nat) :
    x ∈ addLinks L P ↔ x ∈ L ∨ x ∈ P := by
  induction P generalizing L with
  | nil => simp [addLinks]
  | cons p ps ih =>
    show x ∈ addLinks (if L.contains p then L else L ++ [p]) ps ↔ _
    rw [ih]
    by_cases hc : L.contains p = true
    · rw [if_pos hc]
      have hp : p ∈ L := List.elem_iff.mp hc
      simp only [List.mem_cons]
      constructor
      · rintro (h | h)
        · exact Or.inl h
        · exact Or.inr (Or.inr h)
      · rintro (h | h | h)
        · exact Or.inl h
        · exact Or.inl (h ▸ hp)
        · exact Or.inr h
    · rw [if_neg hc]
      simp only [List.mem_append, List.mem_cons, List.not_mem_nil, or_false]
      constructor
      · rintro ((h | h) | h)
        · exact Or.inl h
        · exact Or.inr (Or.inl h)
        · exact Or.inr (Or.inr h)
      · rintro (h | h | h)
        · exact Or.inl (Or.inl h)
        · exact Or.inl (Or.inr h)
        · exact Or.inr h

/-- Inserting pairs that are all already present is a no-op, list
equality included. -/
theorem addLinks_eq_self (L P : List (Nat × Nat)) (h : ∀ p ∈ P, p ∈ L) :
    addLinks L P = L := by
  induction P with
  | nil => rfl
  | cons p ps ih =>
    show addLinks (if L.contains p then L else L ++ [p]) ps = L
    rw [if_pos (List.elem_iff.mpr (h p (List.mem_cons_self p ps)))]
    exact ih fun q hq => h q (List.mem_cons_of_mem p hq)

/-- The key test ignores the overwritten columns. -/
theorem overwriteRow_key (row : DailyMetric) (now : Int) (r : DailyMetric) (a : Nat) (b : Int) :
    keyMatch (overwriteRow row now r) a b = keyMatch r a b := by
  unfold overwriteRow
  split <;> rfl

/-- The upsert branch taken when the key is present. -/
theorem upsert_pos (tbl : List DailyMetric) (row : DailyMetric) (now : Int)
    (h : (tbl.any fun r => keyMatch r row.repo_id row.metric_date) = true) :
    upsertMetric tbl row now = tbl.map (overwriteRow row now) := by
  unfold upsertMetric
  rw [if_pos h]

/-- The upsert branch taken when the key is absent. -/
theorem upsert_neg (tbl : List DailyMetric) (row : DailyMetric) (now : Int)
    (h : (tbl.any fun r => keyMatch r row.repo_id row.metric_date) = false) :
    upsertMetric tbl row now = tbl ++ [{ row with last_updated := now }] := by
  unfold upsertMetric
  rw [if_neg (by rw [h]; exact Bool.false_ne_true)]

/-- After any upsert the row's key is present in the table. -/
theorem upsert_any (tbl : List DailyMetric) (row : DailyMetric) (now : Int) :
    ((upsertMetric tbl row now).any fun r => keyMatch r row.repo_id row.metric_date) = true := by
  by_cases hk : (tbl.any fun r => keyMatch r row.repo_id row.metric_date) = true
  · rw [upsert_pos tbl row now hk]
    obtain ⟨r, hr, hkr⟩ := List.any_eq_true.mp hk
    exact List.any_eq_true.mpr
      ⟨overwriteRow row now r, List.mem_map.mpr ⟨r, hr, rfl⟩, by rw [overwriteRow_key]; exact hkr⟩
  · rw [upsert_neg tbl row now (Bool.not_eq_true _ ▸ hk)]
    apply List.any_eq_true.mpr
    refine ⟨{ row with last_updated := now }, List.mem_append.mpr (Or.inr ?_), ?_⟩
    · exact List.mem_singleton.mpr rfl
    · simp [keyMatch]

/-- After an upsert, every row holding the key carries exactly the
upserted measures. -/
theorem upsert_measures (tbl : List DailyMetric) (row : DailyMetric) (now : Int) :
    ∀ r ∈ upsertMetric tbl row now, keyMatch r row.repo_id row.metric_date = true →
      r.deployment_frequency = row.deployment_frequency ∧
      r.lead_time_hours = row.lead_time_hours ∧
      r.change_failure_rate = row.change_failure_rate ∧
      r.mttr_hours = row.mttr_hours := by
  by_cases hk : (tbl.any fun r => keyMatch r row.repo_id row.metric_date) = true
  · rw [upsert_pos tbl row now hk]
    intro r hr hkey
    obtain ⟨r0, hr0, heq⟩ := List.mem_map.mp hr
    subst heq
    by_cases hk0 : keyMatch r0 row.repo_id row.metric_date = true
    · simp [overwriteRow, hk0]
    · rw [overwriteRow_key] at hkey
      exact absurd hkey hk0
  · rw [upsert_neg tbl row now (Bool.not_eq_true _ ▸ hk)]
    intro r hr hkey
    rcases List.mem_append.mp hr with h | h
    · have hcontra : (tbl.any fun r => keyMatch r row.repo_id row.metric_date) = true :=
        List.any_eq_true.mpr ⟨r, h, hkey⟩
      exact absurd hcontra hk
    · rw [List.mem_singleton.mp h]
      exact ⟨rfl, rfl, rfl, rfl⟩

/-- Upserting the same measures twice changes nothing outside
`last_updated`. -/
theorem upsert_twice_strip (tbl : List DailyMetric) (row : DailyMetric) (now1 now2 : Int) :
    stripTable (upsertMetric (upsertMetric tbl row now1) row now2)
      = stripTable (upsertMetric tbl row now1) := by
  rw [upsert_pos _ _ _ (upsert_any tbl row now1)]
  unfold stripTable
  rw [List.map_map]
  apply List.map_congr_left
  intro r hr
  show stripRow (overwriteRow row now2 r) = stripRow r
  by_cases hkey : keyMatch r row.repo_id row.metric_date = true
  · have hm := upsert_measures tbl row now1 r hr hkey
    unfold overwriteRow
    rw [if_pos hkey]
    unfold stripRow
    rw [← hm.1, ← hm.2.1, ← hm.2.2.1, ← hm.2.2.2]
  · unfold overwriteRow
    rw [if_neg hkey]

/-- C7: after either PR-linking operation, every deployment/PR pair of
a repository with equal commit hashes is in the link set; both
operations preserve all existing links and are idempotent as functions
on the snapshot, so re-running them never duplicates or removes
links. -/
theorem claim_C7_pr_linking :
    (∀ (db : DB) (d : Deployment) (p : PullRequest),
        d ∈ db.deployments → p ∈ db.pull_requests →
        d.repo_id = p.repo_id → d.commit_sha = p.commit_sha →
        (d.deployment_id, p.pr_id) ∈ (linkPRsToDeployments db).links) ∧
    (∀ db : DB, ∀ l ∈ db.links, l ∈ (linkPRsToDeployments db).links) ∧
    (∀ db : DB, linkPRsToDeployments (linkPRsToDeployments db) = linkPRsToDeployments db) ∧
    (∀ (db : DB) (repo pid : Nat) (sha : String) (d : Deployment),
        d ∈ db.deployments → d.repo_id = repo → d.commit_sha = sha →
        (d.deployment_id, pid) ∈ (link_pr_to_deployment db repo pid sha).links) ∧
    (∀ (db : DB) (repo pid : Nat) (sha : String), ∀ l ∈ db.links,
        l ∈ (link_pr_to_deployment db repo pid sha).links) ∧
    (∀ (db : DB) (repo pid : Nat) (sha : String),
        link_pr_to_deployment (link_pr_to_deployment db repo pid sha) repo pid sha
          = link_pr_to_deployment db repo pid sha) := by
  refine ⟨?_, ?_, ?_, ?_, ?_, ?_⟩
  · intro db d p hd hp hrepo hsha
    apply (mem_addLinks _ _ _).mpr
    refine Or.inr (List.mem_flatMap.mpr ⟨d, hd, List.mem_map.mpr ⟨p, ?_, rfl⟩⟩)
    exact List.mem_filter.mpr ⟨hp, by simp [hsha, hrepo]⟩
  · intro db l hl
    exact (mem_addLinks _ _ _).mpr (Or.inl hl)
  · intro db
    show { db with
        links := addLinks (addLinks db.links (matchedPairs db)) (matchedPairs db) }
      = { db with links := addLinks db.links (matchedPairs db) }
    rw [addLinks_eq_self _ _ fun q hq => (mem_addLinks _ _ q).mpr (Or.inr hq)]
  · intro db repo pid sha d hd hrepo hsha
    apply (mem_addLinks _ _ _).mpr
    refine Or.inr (List.mem_map.mpr ⟨d, ?_, rfl⟩)
    exact List.mem_filter.mpr ⟨hd, by simp [hrepo, hsha]⟩
  · intro db repo pid sha l hl
    exact (mem_addLinks _ _ _).mpr (Or.inl hl)
  · intro db repo pid sha
    show { db with
        links := addLinks (addLinks db.links (prLinkPairs db repo pid sha))
          (prLinkPairs db repo pid sha) }
      = { db with links := addLinks db.links (prLinkPairs db repo pid sha) }
    rw [addLinks_eq_self _ _ fun q hq => (mem_addLinks _ _ q).mpr (Or.inr hq)]

/-- Witness for C7: in `dbShared` (deployment 7 and PR 3 share commit
`abc`) both linking operations produce the link `(7, 3)`. -/
theorem claim_C7_pr_linking_witness :
    (7, 3) ∈ (linkPRsToDeployments dbShared).links ∧
    (7, 3) ∈ (link_pr_to_deployment dbShared 1 3 "abc").links :=
  ⟨claim_C7_pr_linking.1 dbShared ⟨7, 1, some "production", "success", 5000, "abc", none⟩
      ⟨3, 1, 0, some 100, 0, "abc"⟩ (by decide) (by decide) rfl rfl,
    claim_C7_pr_linking.2.2.2.1 dbShared 1 3 "abc"
      ⟨7, 1, some "production", "success", 5000, "abc", none⟩ (by decide) rfl rfl⟩

/-- C9: the aggregation is idempotent — re-running either variant's
store pass for the same repository and day over unchanged data leaves
the metrics table unchanged outside `last_updated`; the upsert appends
the row when the key is absent and otherwise overwrites exactly the
four measures of the keyed row. -/
theorem claim_C9_idempotent_aggregation :
    (∀ (db : DB) (tbl : List DailyMetric) (repo : Nat) (s e date now1 now2 : Int),
        stripTable (rootStore db (rootStore db tbl repo s e date now1) repo s e date now2)
          = stripTable (rootStore db tbl repo s e date now1)) ∧
    (∀ (db : DB) (tbl : List DailyMetric) (repo : Nat) (s e date now1 now2 : Int),
        stripTable (appStore db (appStore db tbl repo s e date now1) repo s e date now2)
          = stripTable (appStore db tbl repo s e date now1)) ∧
    (∀ (tbl : List DailyMetric) (row : DailyMetric) (now : Int),
        (tbl.any fun r => keyMatch r row.repo_id row.metric_date) = false →
        upsertMetric tbl row now = tbl ++ [{ row with last_updated := now }]) ∧
    (∀ (tbl : List DailyMetric) (row : DailyMetric) (now : Int),
        ∀ r ∈ upsertMetric tbl row now, keyMatch r row.repo_id row.metric_date = true →
          r.deployment_frequency = row.deployment_frequency ∧
          r.lead_time_hours = row.lead_time_hours ∧
          r.change_failure_rate = row.change_failure_rate ∧
          r.mttr_hours = row.mttr_hours) := by
  refine ⟨?_, ?_, upsert_neg, upsert_measures⟩
  · intro db tbl repo s e date now1 now2
    exact upsert_twice_strip tbl (measuresRow repo date (rootMetrics db repo s e)) now1 now2
  · intro db tbl repo s e date now1 now2
    exact upsert_twice_strip tbl (measuresRow repo date (appMetrics db repo s e date)) now1 now2

/-- Witness for C9: storing into an empty table inserts the computed
row. -/
theorem claim_C9_idempotent_aggregation_witness :
    rootStore dbEmpty [] 1 0 86400 0 5
      = [{ measuresRow 1 0 (rootMetrics dbEmpty 1 0 86400) with last_updated := 5 }] :=
  claim_C9_idempotent_aggregation.2.2.1 [] (measuresRow 1 0 (rootMetrics dbEmpty 1 0 86400)) 5 rfl

end Dora
